import Mathlib

set_option maxRecDepth 1000000

/-!
# Mortgage-calc-extended: verification of the bank-data core

Shallow embedding of the computational core of the repository:

* the amortization calculation of `src/components/MemoizedBankCard/index.jsx`
  (`calculatedValues`),
* the CSV/JSON import and export pipeline of `src/utils/file-utils.js`
  (`exportBanksToCSV`, `importBanksFromCSV`, `exportBanksToJSON`,
  `importBanksFromJSON`),
* the banks reducer of the state store (fetch transitions as shown in the
  repository's design document).

JavaScript numbers are embedded as exact rationals (`ℚ`); a division whose
denominator is zero produces a non-finite JS number (`NaN` or `±Infinity`),
embedded as `Option.none` where only `NaN`/non-finiteness matters and as the
three-valued `JsFloat` where the sign of an infinity is observable.
-/

/-- JS division `a / b` restricted to finite results: `none` models the
non-finite result (`NaN` when `a = 0`, `±Infinity` otherwise) produced when
the denominator is zero. -/
def jsDiv (a b : ℚ) : Option ℚ :=
  if b = 0 then none else some (a / b)

/-- JS `Math.round`: rounds half up (toward positive infinity). -/
def jsRound (q : ℚ) : ℤ := ⌊q + 1/2⌋

/-- JS `Math.pow` restricted to natural exponents (the only use in the code is
`Math.pow(1 + r, LoanTerm * 12)`); unary recursion keeps kernel reduction
cheap. -/
def ratPow (q : ℚ) : ℕ → ℚ
  | 0 => 1
  | n + 1 => ratPow q n * q

/-- Input of the memoized card's calculation: the four scalar fields it
destructures from the `bank` prop.  `LoanTerm` is a natural number because it
is used as the exponent of `Math.pow`. -/
structure CalcBank where
  InterestRate : ℚ
  MaximumLoan : ℚ
  MinimumDownPayment : ℚ
  LoanTerm : ℕ
deriving DecidableEq

/-- Result record of `calculatedValues`; each field is `none` when the JS
computation produces a non-finite number (`Math.round` of `NaN`/`±Infinity`). -/
structure CalcValues where
  monthlyPayment : Option ℤ
  totalInterest : Option ℤ
  downPaymentPercentage : Option ℤ
deriving DecidableEq

/-- `calculatedValues` from `src/components/MemoizedBankCard/index.jsx`
(lines 18-35): the mortgage payment calculation performed inside `useMemo`.
There is no special case for `InterestRate = 0`: the code always divides by
`Math.pow(1 + r, n) - 1`. -/
def calculatedValues (bank : CalcBank) : CalcValues :=
  let r : ℚ := bank.InterestRate / 100 / 12
  let pw : ℚ := ratPow (1 + r) (bank.LoanTerm * 12)
  let principal : ℚ := bank.MaximumLoan - bank.MinimumDownPayment
  let monthlyPayment : Option ℚ := jsDiv (principal * r * pw) (pw - 1)
  let totalInterest : Option ℚ :=
    monthlyPayment.map (fun m => m * ((bank.LoanTerm * 12 : ℕ) : ℚ) - principal)
  let downPaymentPercentage : Option ℚ :=
    (jsDiv bank.MinimumDownPayment bank.MaximumLoan).map (fun d => d * 100)
  { monthlyPayment := monthlyPayment.map jsRound
    totalInterest := totalInterest.map jsRound
    downPaymentPercentage := downPaymentPercentage.map jsRound }

/-- The amortization formula as the spec states it (section 4.3), including
the required special case `monthlyPayment = principal / n` at `r = 0`.  This
is the spec-side definition used to compare the code against the spec's
words. -/
def spec_monthlyPayment (rate maxLoan minDown : ℚ) (termYears : ℕ) : ℚ :=
  let principal : ℚ := maxLoan - minDown
  let r : ℚ := rate / 100 / 12
  let n : ℚ := (termYears * 12 : ℕ)
  if r = 0 then principal / n
  else principal * r * ratPow (1 + r) (termYears * 12) / (ratPow (1 + r) (termYears * 12) - 1)

/-- Spec section 4.3: `totalInterest = monthlyPayment * n - principal`. -/
def spec_totalInterest (rate maxLoan minDown : ℚ) (termYears : ℕ) : ℚ :=
  spec_monthlyPayment rate maxLoan minDown termYears * ((termYears * 12 : ℕ) : ℚ) - (maxLoan - minDown)

/-- Spec section 4.3: `downPaymentPercentage = minimumDownPayment / maximumLoan * 100`. -/
def spec_downPaymentPercentage (maxLoan minDown : ℚ) : ℚ :=
  minDown / maxLoan * 100

/-! ## JS string primitives

`String.prototype.split` with a single-character separator, `trim`, and
`Array.prototype.join` are embedded as structural recursions over `List Char`
so that every import/export computation reduces in the kernel. -/

/-- JS `s.split(sep)` for a one-character separator, over the character
list: `[] ↦ [[]]` models `"".split(sep) = [""]`. -/
def splitCharList (sep : Char) : List Char → List (List Char)
  | [] => [[]]
  | c :: cs =>
    if c = sep then [] :: splitCharList sep cs
    else
      match splitCharList sep cs with
      | [] => [[c]]
      | h :: t => (c :: h) :: t

/-- JS `Array.prototype.join` with a one-character separator. -/
def joinChar (sep : Char) : List (List Char) → List Char
  | [] => []
  | [l] => l
  | l :: ls => l ++ sep :: joinChar sep ls

/-- Strip trailing whitespace. -/
def trimEndChars (l : List Char) : List Char :=
  (l.reverse.dropWhile Char.isWhitespace).reverse

/-- JS `String.prototype.trim`: strip leading and trailing whitespace. -/
def trimChars (l : List Char) : List Char :=
  trimEndChars (l.dropWhile Char.isWhitespace)

/-- The `replace(/^"|"$/g, '')` of the CSV importer: remove one leading and
one trailing double quote when present. -/
def stripQuotes (l : List Char) : List Char :=
  let l1 := match l with
    | '"' :: rest => rest
    | other => other
  if l1.getLast? = some '"' then l1.dropLast else l1

/-! ## JS numbers and numeric string parsing -/

/-- A JS `number` as observed by the import pipeline: `NaN`, a signed
infinity, or a finite value (embedded exactly as a rational). -/
inductive JsFloat where
  | nan
  | inf (pos : Bool)
  | fin (q : ℚ)
deriving DecidableEq

/-- JS `isNaN` on an already-converted number. -/
def JsFloat.isNaN : JsFloat → Bool
  | .nan => true
  | _ => false

/-- The JS comparison `x < 0` (false for `NaN`). -/
def JsFloat.ltZero : JsFloat → Bool
  | .nan => false
  | .inf pos => !pos
  | .fin q => decide (q < 0)

/-- Numeric value of a decimal digit character. -/
def digitVal (c : Char) : ℕ := c.toNat - 48

/-- Value of a list of decimal digit characters. -/
def digitsToNat (ds : List Char) : ℕ :=
  ds.foldl (fun n c => n * 10 + digitVal c) 0

/-- Optional leading sign; returns (isNegative, rest). -/
def parseSign : List Char → Bool × List Char
  | '-' :: cs => (true, cs)
  | '+' :: cs => (false, cs)
  | cs => (false, cs)

/-- JS `parseFloat`: skip leading whitespace, then parse the longest prefix
that is a signed decimal literal (digits, optional fraction, optional
exponent) or a signed `Infinity`; `NaN` when no digit is found. -/
def jsParseFloatChars (l : List Char) : JsFloat :=
  let cs := l.dropWhile Char.isWhitespace
  let sg := parseSign cs
  let cs1 := sg.2
  if cs1.take 8 = "Infinity".toList then .inf (!sg.1)
  else
    let ids := cs1.takeWhile Char.isDigit
    let rest1 := cs1.dropWhile Char.isDigit
    let fr := match rest1 with
      | '.' :: r => (r.takeWhile Char.isDigit, r.dropWhile Char.isDigit)
      | _ => ([], rest1)
    if ids = [] ∧ fr.1 = [] then .nan
    else
      let e : ℤ := match fr.2 with
        | c :: r =>
          if c = 'e' ∨ c = 'E' then
            let esg := parseSign r
            let eds := esg.2.takeWhile Char.isDigit
            if eds = [] then 0
            else if esg.1 then -(digitsToNat eds : ℤ) else (digitsToNat eds : ℤ)
          else 0
        | [] => 0
      let mant : ℚ := (digitsToNat ids : ℚ) + (digitsToNat fr.1 : ℚ) / ((10 : ℚ) ^ fr.1.length)
      let v : ℚ := mant * (10 : ℚ) ^ e
      .fin (if sg.1 then -v else v)

/-- Hexadecimal digit predicate of JS `parseInt`. -/
def isHexDigitChar (c : Char) : Bool :=
  c.isDigit || ('a' ≤ c && c ≤ 'f') || ('A' ≤ c && c ≤ 'F')

/-- Numeric value of a hexadecimal digit character. -/
def hexVal (c : Char) : ℕ :=
  if c.isDigit then digitVal c
  else if 'a' ≤ c && c ≤ 'f' then c.toNat - 87
  else c.toNat - 55

/-- Value of a list of hexadecimal digit characters. -/
def hexDigitsToNat (ds : List Char) : ℕ :=
  ds.foldl (fun n c => n * 16 + hexVal c) 0

/-- JS `parseInt` with no radix argument: skip leading whitespace, optional
sign, a `0x`/`0X` prefix selects base 16, otherwise the longest prefix of
decimal digits; `none` models `NaN`. -/
def jsParseIntChars (l : List Char) : Option ℤ :=
  let cs := l.dropWhile Char.isWhitespace
  let sg := parseSign cs
  let signed : ℕ → ℤ := fun n => if sg.1 then -(n : ℤ) else (n : ℤ)
  match sg.2 with
  | '0' :: x :: rest =>
    if x = 'x' ∨ x = 'X' then
      let hds := rest.takeWhile isHexDigitChar
      if hds = [] then none else some (signed (hexDigitsToNat hds))
    else
      some (signed (digitsToNat (('0' :: x :: rest).takeWhile Char.isDigit)))
  | other =>
    let ds := other.takeWhile Char.isDigit
    if ds = [] then none else some (signed (digitsToNat ds))

/-! ## Bank records -/

/-- A bank record as held by the application (fields are finite JS numbers). -/
structure BankRecord where
  BankName : String
  InterestRate : ℚ
  MaximumLoan : ℚ
  MinimumDownPayment : ℚ
  LoanTerm : ℚ
deriving DecidableEq

/-- A bank record as produced by the importers: the name is the (trimmed or
quote-stripped) text, the three amounts are `parseFloat` results and the term
is a `parseInt` result (`none` models `NaN`). -/
structure ParsedBank where
  BankName : String
  InterestRate : JsFloat
  MaximumLoan : JsFloat
  MinimumDownPayment : JsFloat
  LoanTerm : Option ℤ
deriving DecidableEq

/-! ## JS number-to-string (for export)

`Array.prototype.join` stringifies each number.  Every number the
application stores prints as its (shortest) decimal representation, so the
embedding renders a rational with terminating decimal expansion; exponent
notation (|q| ≥ 1e21 or 0 < |q| < 1e-6) is outside the model. -/

/-- The decimal digit characters, by value (clamped at 9; only applied to
values < 10). -/
def digitChar (d : ℕ) : Char :=
  match d with
  | 0 => '0' | 1 => '1' | 2 => '2' | 3 => '3' | 4 => '4'
  | 5 => '5' | 6 => '6' | 7 => '7' | 8 => '8' | _ => '9'

/-- Decimal digits of a natural number, most significant first
(fuel-structured so that it reduces in the kernel). -/
def natToDigitsAux : ℕ → ℕ → List Char
  | 0, _ => []
  | fuel + 1, n =>
    if n < 10 then [digitChar n]
    else natToDigitsAux fuel (n / 10) ++ [digitChar (n % 10)]

/-- Decimal digits of a natural number, most significant first. -/
def natToDigits (n : ℕ) : List Char := natToDigitsAux (n + 1) n

/-- Smallest `k` with `d ∣ 10 ^ k` (denominators of the stored numbers are
of the form `2^a * 5^b`, for which such a `k` exists and is at most `d`). -/
def decExponent (d : ℕ) : ℕ :=
  (((List.range (d + 1)).find? (fun k => decide (d ∣ 10 ^ k))).getD 0)

/-- JS number-to-string for a rational with terminating decimal expansion:
sign, integer digits, and (when the value is not an integer) a point and the
fraction digits. -/
def jsNumChars (q : ℚ) : List Char :=
  let k := decExponent q.den
  let m := q.num.natAbs * 10 ^ k / q.den
  let ds0 := natToDigits m
  let ds := if ds0.length ≤ k then List.replicate (k + 1 - ds0.length) '0' ++ ds0 else ds0
  (if q.num < 0 then ['-'] else []) ++
    ds.take (ds.length - k) ++ (if k = 0 then [] else '.' :: ds.drop (ds.length - k))

/-! ## CSV export (`exportBanksToCSV`, file-utils.js lines 48-97)

The DOM / Blob / download plumbing is outside the model: the embedding
returns the CSV text handed to the `Blob`, or the error thrown before it is
built.  (The caller rethrows every failure as `'Failed to export banks
data'`; the inner message is the observable distinguishing the empty-guard.) -/

/-- The exact header row of the CSV export. -/
def headerLine : String :=
  "Bank Name,Interest Rate (%),Maximum Loan ($),Minimum Down Payment ($),Loan Term (years)"

/-- One CSV data row: the bank name in double quotes, then the four numbers,
joined with commas. -/
def csvRowChars (b : BankRecord) : List Char :=
  joinChar ',' [('"' :: b.BankName.toList) ++ ['"'], jsNumChars b.InterestRate,
    jsNumChars b.MaximumLoan, jsNumChars b.MinimumDownPayment, jsNumChars b.LoanTerm]

/-- `exportBanksToCSV`: fails on an empty collection, otherwise produces the
header row followed by one row per bank, joined with newlines. -/
def exportBanksToCSV (banks : List BankRecord) : Except String String :=
  if banks.length = 0 then .error "No banks data to export"
  else .ok (String.mk (joinChar '\n' (headerLine.toList :: banks.map csvRowChars)))

/-! ## CSV import (`importBanksFromCSV`, file-utils.js lines 171-248)

The `FileReader` plumbing and the `file.type` guard are outside the model:
the embedding consumes the file text.  Errors carry the message of the
rejected promise (`'Failed to parse CSV file: ' + inner`). -/

/-- The expected header fields checked (by count only) by the importer. -/
def expectedHeaders : List String :=
  ["Bank Name", "Interest Rate (%)", "Maximum Loan ($)",
   "Minimum Down Payment ($)", "Loan Term (years)"]

/-- Lines of the file: split on newlines, blank (whitespace-only) lines
discarded. -/
def csvLines (content : String) : List String :=
  ((splitCharList '\n' content.toList).map String.mk).filter
    (fun l => trimChars l.toList ≠ [])

/-- The values of one data row: split on commas, each value trimmed and
quote-stripped. -/
def csvValues (line : String) : List (List Char) :=
  (splitCharList ',' line.toList).map (fun v => stripQuotes (trimChars v))

/-- The record built from one data row before validation. -/
def csvRowBank (line : String) : ParsedBank :=
  let values := csvValues line
  { BankName := String.mk (values.getD 0 [])
    InterestRate := jsParseFloatChars (values.getD 1 [])
    MaximumLoan := jsParseFloatChars (values.getD 2 [])
    MinimumDownPayment := jsParseFloatChars (values.getD 3 [])
    LoanTerm := jsParseIntChars (values.getD 4 []) }

/-- The row-error template literal of the importer: `Row ${i + 1}: ${what}`. -/
def rowErrMsg (i : ℕ) (what : String) : String :=
  "Row " ++ toString (i + 1) ++ ": " ++ what

/-- Parse and validate the data row at loop index `i` (the row is line
`i + 1` of the file, so errors name `Row (i + 1)`). -/
def parseCsvRow (i : ℕ) (line : String) : Except String ParsedBank :=
  let values := csvValues line
  if values.length ≠ expectedHeaders.length then
    .error (rowErrMsg i "Invalid number of columns")
  else
    let bank := csvRowBank line
    if bank.BankName = "" then
      .error (rowErrMsg i "Invalid or missing Bank Name")
    else if bank.InterestRate.isNaN || bank.InterestRate.ltZero then
      .error (rowErrMsg i "Invalid Interest Rate")
    else if bank.MaximumLoan.isNaN || bank.MaximumLoan.ltZero then
      .error (rowErrMsg i "Invalid Maximum Loan")
    else if bank.MinimumDownPayment.isNaN || bank.MinimumDownPayment.ltZero then
      .error (rowErrMsg i "Invalid Minimum Down Payment")
    else
      match bank.LoanTerm with
      | none => .error (rowErrMsg i "Invalid Loan Term")
      | some t =>
        if t < 1 then .error (rowErrMsg i "Invalid Loan Term")
        else .ok bank

/-- The importer's row loop, starting at loop index `i`: the first thrown
row error aborts the whole loop. -/
def csvDataRows (i : ℕ) : List String → Except String (List ParsedBank)
  | [] => .ok []
  | line :: rest =>
    match parseCsvRow i line with
    | .error e => .error e
    | .ok b =>
      match csvDataRows (i + 1) rest with
      | .error e => .error e
      | .ok bs => .ok (b :: bs)

/-- `importBanksFromCSV` on the file text: all-or-nothing (an `Except.error`
carries no records). -/
def importBanksFromCSV (content : String) : Except String (List ParsedBank) :=
  let lines := csvLines content
  if lines.length < 2 then
    .error "Failed to parse CSV file: CSV file must contain at least header and one data row"
  else
    let headers := (splitCharList ',' (lines.headD "").toList).map
      (fun h => String.mk (trimChars h))
    if headers.length ≠ expectedHeaders.length then
      .error "Failed to parse CSV file: Invalid CSV format: incorrect number of columns"
    else
      match csvDataRows 1 (lines.drop 1) with
      | .ok banks => .ok banks
      | .error msg => .error ("Failed to parse CSV file: " ++ msg)

/-! ## Spec-side row validity (section 4.4 of the spec, amended)

The spec describes a data row as valid when it has exactly 5 columns, its
numeric fields are numeric and in range (rate/amounts ≥ 0, term ≥ 1) — and,
as the code additionally requires, a non-empty bank name. -/

/-- Spec-side: a numeric cell is acceptable when it is numeric and ≥ 0. -/
def spec_csvNumOk (v : List Char) : Bool :=
  match jsParseFloatChars v with
  | .nan => false
  | .inf pos => pos
  | .fin q => decide (0 ≤ q)

/-- Spec-side: the term cell is acceptable when it is numeric and ≥ 1. -/
def spec_csvTermOk (v : List Char) : Bool :=
  match jsParseIntChars v with
  | none => false
  | some t => decide (1 ≤ t)

/-- Spec-side validity of one CSV data row (amended with the non-empty-name
requirement the code enforces). -/
def spec_csvRowOk (line : String) : Bool :=
  let vs := csvValues line
  (vs.length == 5) && (vs.getD 0 [] != []) && spec_csvNumOk (vs.getD 1 []) &&
    spec_csvNumOk (vs.getD 2 []) && spec_csvNumOk (vs.getD 3 []) &&
    spec_csvTermOk (vs.getD 4 [])

/-! ## JSON import (`importBanksFromJSON`, file-utils.js lines 104-164)

The importer reads the file text, applies `JSON.parse`, and validates the
resulting array element by element.  The embedding works on the parsed value
tree: `JSON.parse ∘ JSON.stringify` is the identity on JSON value trees, and
the claims quantify over inputs whose parse yields a sequence, so the
sequence of parsed elements is the model's input.  A field of an element is
one of the primitive JSON values or absent; array- or object-valued fields
are outside the model. -/

/-- A primitive JSON field value as seen by the validator (`missing` models
an absent property, i.e. `undefined`). -/
inductive JsValue where
  | missing
  | null
  | bool (b : Bool)
  | num (q : ℚ)
  | str (s : String)
deriving DecidableEq

/-- One element of the parsed JSON array, with the five fields the validator
reads. -/
structure JsBank where
  BankName : JsValue
  InterestRate : JsValue
  MaximumLoan : JsValue
  MinimumDownPayment : JsValue
  LoanTerm : JsValue
deriving DecidableEq

/-- JS truthiness of a field value (`!v` is its negation). -/
def jsTruthy : JsValue → Bool
  | .missing => false
  | .null => false
  | .bool b => b
  | .num q => !(q == 0)
  | .str s => !(s == "")

/-- Is the value a string (`typeof v === 'string'`)? -/
def JsValue.isString : JsValue → Bool
  | .str _ => true
  | _ => false

/-- Full-string signed decimal literal (or `Infinity`) for JS `ToNumber`:
unlike `parseFloat`, trailing garbage makes the conversion `NaN`. -/
def decFullValue (t : List Char) : JsFloat :=
  let sg := parseSign t
  if sg.2 = "Infinity".toList then .inf (!sg.1)
  else
    let ids := sg.2.takeWhile Char.isDigit
    let r1 := sg.2.dropWhile Char.isDigit
    let fr := match r1 with
      | '.' :: r => (r.takeWhile Char.isDigit, r.dropWhile Char.isDigit)
      | _ => ([], r1)
    if ids = [] ∧ fr.1 = [] then .nan
    else
      let e : Option ℤ := match fr.2 with
        | [] => some 0
        | c :: r =>
          if c = 'e' ∨ c = 'E' then
            let esg := parseSign r
            let eds := esg.2.takeWhile Char.isDigit
            if eds ≠ [] ∧ esg.2.dropWhile Char.isDigit = [] then
              some (if esg.1 then -(digitsToNat eds : ℤ) else (digitsToNat eds : ℤ))
            else none
          else none
      match e with
      | none => .nan
      | some ex =>
        let mant : ℚ := (digitsToNat ids : ℚ) + (digitsToNat fr.1 : ℚ) / ((10 : ℚ) ^ fr.1.length)
        let v : ℚ := mant * (10 : ℚ) ^ ex
        .fin (if sg.1 then -v else v)

/-- JS `ToNumber` on a string: trim, empty means 0, then a full-string
numeric literal (decimal, `Infinity`, or a `0x`/`0o`/`0b` radix literal). -/
def strToNumber (s : String) : JsFloat :=
  let t := trimChars s.toList
  match t with
  | [] => .fin 0
  | '0' :: x :: rest =>
    if x = 'x' ∨ x = 'X' then
      if rest ≠ [] ∧ rest.all isHexDigitChar then .fin ((hexDigitsToNat rest : ℕ) : ℚ)
      else .nan
    else if x = 'o' ∨ x = 'O' then
      if rest ≠ [] ∧ rest.all (fun c => '0' ≤ c && c ≤ '7') then
        .fin ((rest.foldl (fun n c => n * 8 + digitVal c) 0 : ℕ) : ℚ)
      else .nan
    else if x = 'b' ∨ x = 'B' then
      if rest ≠ [] ∧ rest.all (fun c => c = '0' || c = '1') then
        .fin ((rest.foldl (fun n c => n * 2 + digitVal c) 0 : ℕ) : ℚ)
      else .nan
    else decFullValue t
  | _ => decFullValue t

/-- JS `isNaN(v)` on a field value (`isNaN` converts with `ToNumber`). -/
def jsIsNaN (v : JsValue) : Bool :=
  match v with
  | .missing => true
  | .null => false
  | .bool _ => false
  | .num _ => false
  | .str s => (strToNumber s).isNaN

/-- `parseFloat(v)` on a field value: a number stringifies and re-parses to
itself (for the finite, non-exponent-notation numbers the model covers), a
string is prefix-parsed, and `null`/booleans/`undefined` stringify to
non-numeric text, giving `NaN`. -/
def jsParseFloatOfValue (v : JsValue) : JsFloat :=
  match v with
  | .num q => .fin q
  | .str s => jsParseFloatChars s.toList
  | _ => .nan

/-- `parseInt(v)` on a field value: on a number it truncates toward zero
(`parseInt(String(q))`; numbers printed in exponent notation are outside the
model), on a string it parses the integer prefix, otherwise `NaN`. -/
def jsParseIntOfValue (v : JsValue) : Option ℤ :=
  match v with
  | .num q => some (q.num.tdiv (q.den : ℤ))
  | .str s => jsParseIntChars s.toList
  | _ => none

/-- The text of a string value (only applied after the `typeof` check). -/
def nameText : JsValue → String
  | .str s => s
  | _ => ""

/-- The per-element error template literal: `Bank ${index + 1}: Invalid or
missing ${field}`. -/
def bankErrMsg (i : ℕ) (field : String) : String :=
  "Bank " ++ toString (i + 1) ++ ": Invalid or missing " ++ field

/-- The coercion applied to a validated element: trim the name, `parseFloat`
the three amounts, `parseInt` the term. -/
def coerceJsBank (bank : JsBank) : ParsedBank :=
  { BankName := String.mk (trimChars (nameText bank.BankName).toList)
    InterestRate := jsParseFloatOfValue bank.InterestRate
    MaximumLoan := jsParseFloatOfValue bank.MaximumLoan
    MinimumDownPayment := jsParseFloatOfValue bank.MinimumDownPayment
    LoanTerm := jsParseIntOfValue bank.LoanTerm }

/-- Validation of the element at index `i`, exactly in the code's field
order; note the JS falsy test `!bank.X` rejects `0`, `''`, `null` and
`false` in addition to a missing field. -/
def validateJsBank (i : ℕ) (bank : JsBank) : Except String ParsedBank :=
  if !jsTruthy bank.BankName || !bank.BankName.isString then
    .error (bankErrMsg i "BankName")
  else if !jsTruthy bank.InterestRate || jsIsNaN bank.InterestRate then
    .error (bankErrMsg i "InterestRate")
  else if !jsTruthy bank.MaximumLoan || jsIsNaN bank.MaximumLoan then
    .error (bankErrMsg i "MaximumLoan")
  else if !jsTruthy bank.MinimumDownPayment || jsIsNaN bank.MinimumDownPayment then
    .error (bankErrMsg i "MinimumDownPayment")
  else if !jsTruthy bank.LoanTerm || jsIsNaN bank.LoanTerm then
    .error (bankErrMsg i "LoanTerm")
  else .ok (coerceJsBank bank)

/-- The `banks.map((bank, index) => ...)` loop: the first thrown field error
aborts the whole import. -/
def jsonBankLoop (i : ℕ) : List JsBank → Except String (List ParsedBank)
  | [] => .ok []
  | b :: rest =>
    match validateJsBank i b with
    | .error e => .error e
    | .ok p =>
      match jsonBankLoop (i + 1) rest with
      | .error e => .error e
      | .ok ps => .ok (p :: ps)

/-- `importBanksFromJSON` on a parsed JSON array: all-or-nothing (an
`Except.error` carries no records). -/
def importBanksFromJSON (banks : List JsBank) : Except String (List ParsedBank) :=
  match jsonBankLoop 0 banks with
  | .ok ps => .ok ps
  | .error msg => .error ("Failed to parse JSON file: " ++ msg)

/-- `exportBanksToJSON` at the value-tree level: `JSON.stringify(banks)`
serializes each record with its five fields (name as a JSON string, the four
numbers as JSON numbers); parsing the produced text yields exactly this
array of elements. -/
def exportBanksToJSON (banks : List BankRecord) : List JsBank :=
  banks.map (fun b =>
    { BankName := .str b.BankName
      InterestRate := .num b.InterestRate
      MaximumLoan := .num b.MaximumLoan
      MinimumDownPayment := .num b.MinimumDownPayment
      LoanTerm := .num b.LoanTerm })

/-! ## Spec-side element validity (spec section 4.2, amended)

The spec says an element fails when a required numeric field is missing or
non-numeric (or the name is missing or not a string); the code additionally
rejects every JS-falsy field value — the number `0`, the empty string,
`null` and `false` — and the empty name.  The amended predicate spells the
cases out. -/

/-- Spec-side (amended): a required numeric field is bad when it is missing,
`null`, `false`, the number `0`, the empty string, or a string that does not
convert to a number. -/
def spec_jsonFieldBad (v : JsValue) : Bool :=
  match v with
  | .missing => true
  | .null => true
  | .bool b => !b
  | .num q => q == 0
  | .str s => s == "" || (strToNumber s).isNaN

/-- Spec-side (amended): the bank name is bad when it is not a string or is
the empty string. -/
def spec_jsonNameBad (v : JsValue) : Bool :=
  match v with
  | .str s => s == ""
  | _ => true

/-- Spec-side: the first bad field of an element, in the code's field
order. -/
def spec_jsonFirstBadField (b : JsBank) : Option String :=
  if spec_jsonNameBad b.BankName then some "BankName"
  else if spec_jsonFieldBad b.InterestRate then some "InterestRate"
  else if spec_jsonFieldBad b.MaximumLoan then some "MaximumLoan"
  else if spec_jsonFieldBad b.MinimumDownPayment then some "MinimumDownPayment"
  else if spec_jsonFieldBad b.LoanTerm then some "LoanTerm"
  else none

/-! ## State store (banks reducer and the add-bank submit check) -/

/-- A bank record as held by the store (with its server id). -/
structure StoreBank where
  id : String
  BankName : String
  InterestRate : ℚ
  MaximumLoan : ℚ
  MinimumDownPayment : ℚ
  LoanTerm : ℚ
deriving DecidableEq

/-- The banks slice of the store. -/
structure BanksState where
  items : List StoreBank
  loading : Bool
  error : Option String
deriving DecidableEq

/-- The actions the reducer handles. -/
inductive BanksAction where
  | fetchBanksPending
  | fetchBanksFulfilled (payload : List StoreBank)
  | fetchBanksRejected (error : String)
  | addBankFulfilled (bank : StoreBank)
  | deleteBankFulfilled (id : String)
deriving DecidableEq

/-- `banksReducer`.  The three fetch transitions are the cases shown in the
repository's design document (part_003, lines 425-436): `fulfilled` replaces
`items` with the payload wholesale.

Modelled from the spec: the optimistic `addBankFulfilled` (append) and
`deleteBankFulfilled` (filter by id) transitions of spec section 4.4 — the
redux source file itself is not among the sources; the redux integration
tests exercise exactly these two mutations. -/
def banksReducer (state : BanksState) : BanksAction → BanksState
  | .fetchBanksPending => { state with loading := true, error := none }
  | .fetchBanksFulfilled payload => { state with items := payload, loading := false }
  | .fetchBanksRejected e => { state with error := some e, loading := false }
  | .addBankFulfilled b => { state with items := state.items ++ [b] }
  | .deleteBankFulfilled bid =>
    { state with items := state.items.filter (fun x => x.id ≠ bid) }

/-- Fold a list of actions through the reducer. -/
def applyActions (s : BanksState) : List BanksAction → BanksState
  | [] => s
  | a :: rest => applyActions (banksReducer s a) rest

/-- Modelled from the spec: the submit-time duplicate-name check of the
add-bank form (spec sections 4.1 and 8: a candidate whose `name` exactly
matches an existing record's name, case-sensitively, is rejected with a
duplicate error and nothing is dispatched; the `NewBankCard` component is
not among the sources — its integration test expects the message
`'<name> already exists'` and that no add is dispatched).  Returns the
resulting collection and the optional error message. -/
def submitAddBank (items : List StoreBank) (bank : StoreBank) :
    List StoreBank × Option String :=
  if items.any (fun x => x.BankName == bank.BankName) then
    (items, some (bank.BankName ++ " already exists"))
  else (items ++ [bank], none)

/-- The name-uniqueness invariant of the collection. -/
def uniqueBankNames (items : List StoreBank) : Prop :=
  (items.map (fun b => b.BankName)).Nodup

/-- `ratPow` agrees with the Mathlib power. -/
theorem ratPow_eq_pow (q : ℚ) (n : ℕ) : ratPow q n = q ^ n := by
  induction n with
  | zero => rfl
  | succ n ih => rw [ratPow, ih, pow_succ]

/-- C1: the spec requires a special case `monthlyPayment = principal / n` at
zero interest rate (giving exactly 1000 for principal 120000 over a 10-year
term), but `calculatedValues` has no such special case: at `InterestRate = 0`
it divides by `Math.pow(1 + 0, n) - 1 = 0` and produces a non-finite monthly
payment (`NaN`) instead of the required value. -/
theorem calculatedValues_zero_rate_is_NaN_not_principal_div_n :
    (calculatedValues ⟨0, 120000, 0, 10⟩).monthlyPayment = none ∧
      jsRound (spec_monthlyPayment 0 120000 0 10) = 1000 := by
  constructor
  · with_unfolding_all rfl
  · with_unfolding_all rfl

/-- C2: for strictly positive interest rate (and a term of at least one year),
`calculatedValues` computes exactly the spec's closed-form amortization
formula, with each output rounded to the nearest whole unit; in particular
principal 450000 at 4.5% over 30 years rounds to a monthly payment within ±1
of 2280. -/
theorem calculatedValues_matches_spec_formula :
    (∀ (rate maxLoan minDown : ℚ) (term : ℕ), 0 < rate → 1 ≤ term →
      (calculatedValues ⟨rate, maxLoan, minDown, term⟩).monthlyPayment =
          some (jsRound (spec_monthlyPayment rate maxLoan minDown term)) ∧
        (calculatedValues ⟨rate, maxLoan, minDown, term⟩).totalInterest =
          some (jsRound (spec_totalInterest rate maxLoan minDown term)) ∧
        (maxLoan ≠ 0 →
          (calculatedValues ⟨rate, maxLoan, minDown, term⟩).downPaymentPercentage =
            some (jsRound (spec_downPaymentPercentage maxLoan minDown)))) ∧
      (∃ m : ℤ, (calculatedValues ⟨9/2, 500000, 50000, 30⟩).monthlyPayment = some m ∧
        (m - 2280).natAbs ≤ 1) := by
  constructor
  · intro rate maxLoan minDown term hrate hterm
    have hr : (0 : ℚ) < rate / 100 / 12 := by positivity
    have hpow : (1 : ℚ) < ratPow (1 + rate / 100 / 12) (term * 12) := by
      rw [ratPow_eq_pow]
      exact one_lt_pow₀ (by linarith) (by omega)
    have hne : ratPow (1 + rate / 100 / 12) (term * 12) - 1 ≠ 0 := by linarith
    refine ⟨?_, ?_, ?_⟩
    · simp only [calculatedValues, spec_monthlyPayment, jsDiv, if_neg hne,
        if_neg (ne_of_gt hr)]
      rfl
    · simp only [calculatedValues, spec_totalInterest, spec_monthlyPayment, jsDiv,
        if_neg hne, if_neg (ne_of_gt hr)]
      rfl
    · intro hml
      simp only [calculatedValues, spec_downPaymentPercentage, jsDiv, if_neg hml]
      rfl
  · exact ⟨2280, by with_unfolding_all rfl, by norm_num⟩

/-- Witness for C2 at the spec's own acceptance instance. -/
theorem calculatedValues_matches_spec_formula_witness :
    (calculatedValues ⟨9/2, 500000, 50000, 30⟩).monthlyPayment =
      some (jsRound (spec_monthlyPayment (9/2) 500000 50000 30)) :=
  (calculatedValues_matches_spec_formula.1 (9/2) 500000 50000 30
    (by norm_num) (by norm_num)).1

/-- C7: resolving a fetch replaces the stored collection with exactly the
fetched payload, whatever state the store is in — in particular after any
sequence of optimistic adds or deletes applied while the fetch was in
flight (last-write-wins): a record added during the in-flight fetch is in
the collection afterwards only if it is in the payload. -/
theorem fetchFulfilled_replaces_items (s : BanksState) (mid : List BanksAction)
    (P : List StoreBank) :
    (banksReducer (applyActions (banksReducer s .fetchBanksPending) mid)
        (.fetchBanksFulfilled P)).items = P ∧
      ∀ b : StoreBank,
        (b ∈ (banksReducer (applyActions (banksReducer s .fetchBanksPending) mid)
          (.fetchBanksFulfilled P)).items ↔ b ∈ P) :=
  ⟨rfl, fun _ => Iff.rfl⟩

/-- C8: the fetch-rejected transition sets the error field, clears loading,
and leaves the stored collection untouched (no partial mutation on a
transport failure). -/
theorem fetchRejected_sets_error_keeps_items (s : BanksState) (e : String) :
    banksReducer s (.fetchBanksRejected e) =
      { items := s.items, loading := false, error := some e } :=
  rfl

/-- C9: adding a candidate whose name exactly matches an existing record's
name is rejected with the duplicate-name error and leaves the collection
length unchanged; and the submit-time check preserves name uniqueness on
every insert. -/
theorem submitAddBank_duplicate_rejected :
    (∀ (items : List StoreBank) (bank : StoreBank),
      (∃ x ∈ items, x.BankName = bank.BankName) →
      (submitAddBank items bank).2 = some (bank.BankName ++ " already exists") ∧
        (submitAddBank items bank).1.length = items.length) ∧
    ∀ (items : List StoreBank) (bank : StoreBank),
      uniqueBankNames items → uniqueBankNames (submitAddBank items bank).1 := by
  constructor
  · intro items bank h
    obtain ⟨x, hx, hname⟩ := h
    have hany : items.any (fun x => x.BankName == bank.BankName) = true :=
      List.any_eq_true.mpr ⟨x, hx, by simp [hname]⟩
    constructor
    · simp [submitAddBank, hany]
    · simp [submitAddBank, hany]
  · intro items bank h
    by_cases hany : items.any (fun x => x.BankName == bank.BankName) = true
    · simpa [submitAddBank, hany] using h
    · have hnotmem : bank.BankName ∉ items.map (fun b => b.BankName) := by
        intro hmem
        obtain ⟨x, hx, heq⟩ := List.mem_map.mp hmem
        exact hany (List.any_eq_true.mpr ⟨x, hx, by simp [heq]⟩)
      simp only [submitAddBank, hany, if_false, Bool.false_eq_true]
      unfold uniqueBankNames at h ⊢
      simp only [List.map_append, List.map_cons, List.map_nil]
      exact List.Nodup.append h (List.nodup_singleton _)
        (by simpa [List.disjoint_singleton] using hnotmem)

/-- Witness for C9: a duplicate of the name `A` is rejected. -/
theorem submitAddBank_duplicate_rejected_witness :
    (submitAddBank [⟨"1", "A", 1, 1, 1, 1⟩] ⟨"2", "A", 2, 2, 2, 2⟩).2 =
      some ("A" ++ " already exists") :=
  (submitAddBank_duplicate_rejected.1 [⟨"1", "A", 1, 1, 1, 1⟩] ⟨"2", "A", 2, 2, 2, 2⟩
    ⟨⟨"1", "A", 1, 1, 1, 1⟩, by simp, rfl⟩).1

/-! ### Character-level facts about split, join, trim and number printing -/

theorem splitCharList_ne_nil (sep : Char) (l : List Char) : splitCharList sep l ≠ [] := by
  cases l with
  | nil => simp [splitCharList]
  | cons c cs =>
    simp only [splitCharList]
    split
    · simp
    · split
      · simp
      · simp

theorem splitCharList_length (sep : Char) (l : List Char) :
    (splitCharList sep l).length = l.count sep + 1 := by
  induction l with
  | nil => rfl
  | cons c cs ih =>
    by_cases hc : c = sep
    · subst hc
      simp [splitCharList, List.count_cons, ih]
    · rcases h : splitCharList sep cs with _ | ⟨h0, t⟩
      · exact absurd h (splitCharList_ne_nil sep cs)
      · rw [h] at ih
        simp only [splitCharList, if_neg hc, h, List.length_cons, List.count_cons,
          beq_iff_eq, hc, if_false] at *
        omega

theorem splitCharList_of_not_mem {sep : Char} {l : List Char} (h : sep ∉ l) :
    splitCharList sep l = [l] := by
  induction l with
  | nil => rfl
  | cons c cs ih =>
    have hc : c ≠ sep := fun e => h (e ▸ List.mem_cons_self c cs)
    have hcs : sep ∉ cs := fun e => h (List.mem_cons_of_mem c e)
    simp [splitCharList, hc, ih hcs]

theorem splitCharList_append {sep : Char} {l1 : List Char} (l2 : List Char)
    (h : sep ∉ l1) :
    splitCharList sep (l1 ++ sep :: l2) = l1 :: splitCharList sep l2 := by
  induction l1 with
  | nil => simp [splitCharList]
  | cons c cs ih =>
    have hc : c ≠ sep := fun e => h (e ▸ List.mem_cons_self c cs)
    have hcs : sep ∉ cs := fun e => h (List.mem_cons_of_mem c e)
    simp [splitCharList, hc, ih hcs]

theorem joinChar_cons_cons (sep : Char) (a b : List Char) (ls : List (List Char)) :
    joinChar sep (a :: b :: ls) = a ++ sep :: joinChar sep (b :: ls) := rfl

theorem splitCharList_joinChar {sep : Char} : ∀ {ls : List (List Char)}, ls ≠ [] →
    (∀ l ∈ ls, sep ∉ l) → splitCharList sep (joinChar sep ls) = ls := by
  intro ls
  induction ls with
  | nil => intro h; exact absurd rfl h
  | cons a ls ih =>
    intro _ hall
    cases ls with
    | nil => simpa [joinChar] using splitCharList_of_not_mem (hall a (by simp))
    | cons b t =>
      rw [joinChar_cons_cons, splitCharList_append _ (hall a (by simp))]
      rw [ih (by simp) (fun l hl => hall l (by simp [hl]))]

theorem mem_joinChar {sep c : Char} : ∀ {ls : List (List Char)},
    c ∈ joinChar sep ls → c = sep ∨ ∃ l ∈ ls, c ∈ l := by
  intro ls
  induction ls with
  | nil => intro h; simp [joinChar] at h
  | cons a ls ih =>
    cases ls with
    | nil =>
      intro h
      right
      exact ⟨a, by simp, by simpa [joinChar] using h⟩
    | cons b t =>
      intro h
      rw [joinChar_cons_cons] at h
      rcases List.mem_append.mp h with h | h
      · right; exact ⟨a, by simp, h⟩
      · rcases List.mem_cons.mp h with h | h
        · left; exact h
        · rcases ih h with h | ⟨l, hl, hcmem⟩
          · left; exact h
          · right; exact ⟨l, by simp [hl], hcmem⟩

theorem trimChars_ne_nil {l : List Char} {c : Char} (hc : c ∈ l)
    (hw : c.isWhitespace = false) : trimChars l ≠ [] := by
  intro h
  unfold trimChars trimEndChars at h
  rw [List.reverse_eq_nil_iff, List.dropWhile_eq_nil_iff] at h
  have hmem : c ∈ l.takeWhile Char.isWhitespace ∨ c ∈ l.dropWhile Char.isWhitespace := by
    have := List.takeWhile_append_dropWhile (p := Char.isWhitespace) (l := l)
    rw [← this] at hc
    exact List.mem_append.mp hc
  rcases hmem with hm | hm
  · rw [List.mem_takeWhile_imp hm] at hw
    exact Bool.true_eq_false.mp hw
  · have := h c (List.mem_reverse.mpr hm)
    rw [this] at hw
    exact Bool.true_eq_false.mp hw

theorem digitChar_isDigit (d : ℕ) : (digitChar d).isDigit = true := by
  unfold digitChar
  split <;> decide

theorem mem_natToDigitsAux {c : Char} :
    ∀ (fuel n : ℕ), c ∈ natToDigitsAux fuel n → c.isDigit = true := by
  intro fuel
  induction fuel with
  | zero => intro n h; simp [natToDigitsAux] at h
  | succ fuel ih =>
    intro n h
    simp only [natToDigitsAux] at h
    split at h
    · simp only [List.mem_singleton] at h
      subst h
      exact digitChar_isDigit n
    · rcases List.mem_append.mp h with h | h
      · exact ih _ h
      · simp only [List.mem_singleton] at h
        subst h
        exact digitChar_isDigit _

theorem mem_natToDigits {c : Char} {n : ℕ} (h : c ∈ natToDigits n) :
    c.isDigit = true :=
  mem_natToDigitsAux (n + 1) n h

theorem mem_pad_digits {x : Char} {j : ℕ} {ds0 : List Char}
    (hds0 : ∀ y ∈ ds0, Char.isDigit y = true)
    (h : x ∈ (if ds0.length ≤ j then List.replicate (j + 1 - ds0.length) '0' ++ ds0 else ds0)) :
    x.isDigit = true := by
  split at h
  · rcases List.mem_append.mp h with h | h
    · rw [List.eq_of_mem_replicate h]; decide
    · exact hds0 x h
  · exact hds0 x h

theorem mem_jsNumChars {c : Char} {q : ℚ} (h : c ∈ jsNumChars q) :
    c.isDigit = true ∨ c = '-' ∨ c = '.' := by
  simp only [jsNumChars] at h
  rcases List.mem_append.mp h with h | h
  · rcases List.mem_append.mp h with h | h
    · split at h
      · simp only [List.mem_singleton] at h
        exact Or.inr (Or.inl h)
      · simp at h
    · exact Or.inl (mem_pad_digits (fun y hy => mem_natToDigits hy)
        (List.take_subset _ _ h))
  · split at h
    · simp at h
    · rcases List.mem_cons.mp h with h | h
      · exact Or.inr (Or.inr h)
      · exact Or.inl (mem_pad_digits (fun y hy => mem_natToDigits hy)
          (List.drop_subset _ _ h))

theorem comma_not_mem_jsNumChars (q : ℚ) : ',' ∉ jsNumChars q := by
  intro h
  rcases mem_jsNumChars h with h | h | h
  · exact absurd h (by decide)
  · exact absurd h (by decide)
  · exact absurd h (by decide)

theorem newline_not_mem_jsNumChars (q : ℚ) : '\n' ∉ jsNumChars q := by
  intro h
  rcases mem_jsNumChars h with h | h | h
  · exact absurd h (by decide)
  · exact absurd h (by decide)
  · exact absurd h (by decide)

theorem string_mk_toList (s : String) : String.mk s.toList = s := rfl

theorem newline_not_mem_csvRowChars {b : BankRecord} (hb : '\n' ∉ b.BankName.toList) :
    '\n' ∉ csvRowChars b := by
  intro h
  rcases mem_joinChar h with h | ⟨l, hl, hcmem⟩
  · exact absurd h (by decide)
  · simp only [csvRowChars, List.mem_cons, List.mem_singleton, List.not_mem_nil,
      or_false] at hl
    rcases hl with rfl | rfl | rfl | rfl | rfl
    · rcases List.mem_cons.mp hcmem with h | h
      · exact absurd h (by decide)
      · rcases List.mem_append.mp h with h | h
        · exact hb h
        · simp only [List.mem_singleton] at h
          exact absurd h (by decide)
    · exact newline_not_mem_jsNumChars _ hcmem
    · exact newline_not_mem_jsNumChars _ hcmem
    · exact newline_not_mem_jsNumChars _ hcmem
    · exact newline_not_mem_jsNumChars _ hcmem

theorem count_comma_csvRowChars (b : BankRecord) :
    (csvRowChars b).count ',' = b.BankName.toList.count ',' + 4 := by
  rw [csvRowChars, joinChar_cons_cons, joinChar_cons_cons, joinChar_cons_cons,
    joinChar_cons_cons]
  simp [List.count_append, List.count_cons,
    List.count_eq_zero.mpr (comma_not_mem_jsNumChars b.InterestRate),
    List.count_eq_zero.mpr (comma_not_mem_jsNumChars b.MaximumLoan),
    List.count_eq_zero.mpr (comma_not_mem_jsNumChars b.MinimumDownPayment),
    List.count_eq_zero.mpr (comma_not_mem_jsNumChars b.LoanTerm), joinChar]

/-- C6: `exportBanksToCSV` fails with the empty-collection error exactly when
the collection is empty; for a non-empty collection it produces text whose
first line is exactly the expected header and which continues with one CSV
row per record in collection order (`csvRowChars`: the bank name enclosed in
double quotes, then the four numbers). -/
theorem exportBanksToCSV_characterization (banks : List BankRecord) :
    (exportBanksToCSV banks = .error "No banks data to export" ↔ banks = []) ∧
    (banks ≠ [] → (∀ b ∈ banks, '\n' ∉ b.BankName.toList) →
      ∃ out : String, exportBanksToCSV banks = .ok out ∧
        splitCharList '\n' out.toList = headerLine.toList :: banks.map csvRowChars) := by
  constructor
  · constructor
    · intro h
      by_contra hne
      have hlen : banks.length ≠ 0 := by simpa [List.length_eq_zero] using hne
      simp [exportBanksToCSV, hlen] at h
    · intro h; subst h; rfl
  · intro hne hnames
    have hlen : banks.length ≠ 0 := by simpa [List.length_eq_zero] using hne
    refine ⟨String.mk (joinChar '\n' (headerLine.toList :: banks.map csvRowChars)),
      by simp [exportBanksToCSV, hlen], ?_⟩
    show splitCharList '\n' (joinChar '\n' (headerLine.toList :: banks.map csvRowChars)) = _
    apply splitCharList_joinChar (by simp)
    intro l hl
    rcases List.mem_cons.mp hl with h | h
    · subst h; decide
    · obtain ⟨b, hb, rfl⟩ := List.mem_map.mp h
      exact newline_not_mem_csvRowChars (hnames b hb)

/-- Witness for C6 on a one-bank collection. -/
theorem exportBanksToCSV_characterization_witness :
    ∃ out : String, exportBanksToCSV [⟨"Bank A", 7/2, 500000, 50000, 30⟩] = .ok out ∧
      splitCharList '\n' out.toList =
        headerLine.toList :: [(⟨"Bank A", 7/2, 500000, 50000, 30⟩ : BankRecord)].map csvRowChars :=
  (exportBanksToCSV_characterization [⟨"Bank A", 7/2, 500000, 50000, 30⟩]).2
    (by simp) (by intro b hb; simp only [List.mem_singleton] at hb; subst hb; decide)

/-- C10: a bank whose name contains a comma does not round-trip through CSV:
the exporter quotes the name but the importer splits rows on every comma, so
re-importing the exported text fails with the column-count error naming the
bank's row (row 2 for a one-bank collection). -/
theorem csvRoundTrip_comma_name_fails (b : BankRecord)
    (hc : ',' ∈ b.BankName.toList) (hn : '\n' ∉ b.BankName.toList) :
    ∃ out : String, exportBanksToCSV [b] = .ok out ∧
      importBanksFromCSV out =
        .error "Failed to parse CSV file: Row 2: Invalid number of columns" := by
  obtain ⟨out, hok, hsplit⟩ := (exportBanksToCSV_characterization [b]).2 (by simp)
    (by intro x hx; simp only [List.mem_singleton] at hx; subst hx; exact hn)
  refine ⟨out, hok, ?_⟩
  have hq : '"' ∈ csvRowChars b := by
    rw [csvRowChars, joinChar_cons_cons]
    exact List.mem_append.mpr (Or.inl (List.mem_cons_self _ _))
  have hlines : csvLines out = [headerLine, String.mk (csvRowChars b)] := by
    unfold csvLines
    rw [hsplit]
    simp only [List.map_cons, List.map_nil, string_mk_toList]
    rw [List.filter_cons, List.filter_cons, List.filter_nil]
    rw [if_pos (by decide), if_pos]
    simp only [decide_eq_true_eq]
    show trimChars (String.mk (csvRowChars b)).toList ≠ []
    exact trimChars_ne_nil (c := '"') hq (by decide)
  have hvals : (csvValues (String.mk (csvRowChars b))).length =
      b.BankName.toList.count ',' + 5 := by
    unfold csvValues
    rw [List.length_map]
    show (splitCharList ',' (csvRowChars b)).length = _
    rw [splitCharList_length, count_comma_csvRowChars]
  have hcnt : 0 < b.BankName.toList.count ',' := List.count_pos_iff.mpr hc
  have hne5 : (csvValues (String.mk (csvRowChars b))).length ≠ expectedHeaders.length := by
    rw [hvals]
    show _ ≠ 5
    omega
  have hrow : parseCsvRow 1 (String.mk (csvRowChars b)) =
      .error (rowErrMsg 1 "Invalid number of columns") := by
    unfold parseCsvRow
    rw [if_pos hne5]
  simp only [importBanksFromCSV, hlines]
  rw [if_neg (by simp)]
  rw [if_neg (by simp only [List.headD_cons, List.length_map]; decide)]
  simp only [List.drop_succ_cons, List.drop_zero, csvDataRows, hrow]
  show Except.error ("Failed to parse CSV file: " ++ rowErrMsg 1 "Invalid number of columns") = _
  rw [show ("Failed to parse CSV file: " ++ rowErrMsg 1 "Invalid number of columns") =
    "Failed to parse CSV file: Row 2: Invalid number of columns" from by decide]

/-- Witness for C10: the name `A,B` breaks the CSV round-trip. -/
theorem csvRoundTrip_comma_name_fails_witness :
    ∃ out : String, exportBanksToCSV [⟨"A,B", 1, 2, 3, 4⟩] = .ok out ∧
      importBanksFromCSV out =
        .error "Failed to parse CSV file: Row 2: Invalid number of columns" :=
  csvRoundTrip_comma_name_fails ⟨"A,B", 1, 2, 3, 4⟩ (by decide) (by decide)

/-! ### Row validation vs the spec-side predicate -/

theorem string_mk_eq_empty_iff (l : List Char) : String.mk l = "" ↔ l = [] := by
  constructor
  · intro h
    have := congrArg String.toList h
    simpa using this
  · intro h
    subst h
    rfl

theorem csvNumOk_iff (v : List Char) :
    spec_csvNumOk v = true ↔
      ((jsParseFloatChars v).isNaN || (jsParseFloatChars v).ltZero) = false := by
  unfold spec_csvNumOk
  cases h : jsParseFloatChars v with
  | nan => simp [JsFloat.isNaN, JsFloat.ltZero]
  | inf pos => cases pos <;> simp [JsFloat.isNaN, JsFloat.ltZero]
  | fin q => simp [JsFloat.isNaN, JsFloat.ltZero, not_lt]

theorem csvTermOk_iff (v : List Char) :
    spec_csvTermOk v = true ↔
      ∃ t : ℤ, jsParseIntChars v = some t ∧ ¬ t < 1 := by
  unfold spec_csvTermOk
  cases h : jsParseIntChars v with
  | none => simp
  | some t => simp [not_lt]

theorem parseCsvRow_ok {line : String} (h : spec_csvRowOk line = true) (i : ℕ) :
    parseCsvRow i line = .ok (csvRowBank line) := by
  unfold spec_csvRowOk at h
  simp only [Bool.and_eq_true, beq_iff_eq, bne_iff_ne, ne_eq] at h
  obtain ⟨⟨⟨⟨⟨h5, hname⟩, hr⟩, hml⟩, hmd⟩, ht⟩ := h
  unfold parseCsvRow
  rw [if_neg (by simp [h5, expectedHeaders])]
  rw [if_neg (by
    show ¬ (csvRowBank line).BankName = ""
    unfold csvRowBank
    simpa [string_mk_eq_empty_iff] using hname)]
  rw [if_neg (by
    show ¬ (((csvRowBank line).InterestRate.isNaN || (csvRowBank line).InterestRate.ltZero) = true)
    unfold csvRowBank
    simp only []
    rw [(csvNumOk_iff _).mp hr]
    simp)]
  rw [if_neg (by
    show ¬ (((csvRowBank line).MaximumLoan.isNaN || (csvRowBank line).MaximumLoan.ltZero) = true)
    unfold csvRowBank
    simp only []
    rw [(csvNumOk_iff _).mp hml]
    simp)]
  rw [if_neg (by
    show ¬ (((csvRowBank line).MinimumDownPayment.isNaN || (csvRowBank line).MinimumDownPayment.ltZero) = true)
    unfold csvRowBank
    simp only []
    rw [(csvNumOk_iff _).mp hmd]
    simp)]
  obtain ⟨t, hsome, htlt⟩ := (csvTermOk_iff _).mp ht
  have hterm : (csvRowBank line).LoanTerm = some t := by
    unfold csvRowBank
    simpa using hsome
  rw [hterm]
  simp only [if_neg htlt]

theorem parseCsvRow_error {line : String} (h : spec_csvRowOk line = false) (i : ℕ) :
    ∃ what, parseCsvRow i line = .error (rowErrMsg i what) := by
  unfold parseCsvRow
  by_cases h5 : (csvValues line).length ≠ expectedHeaders.length
  · exact ⟨"Invalid number of columns", by rw [if_pos h5]⟩
  · rw [if_neg h5]
    push_neg at h5
    by_cases hname : (csvRowBank line).BankName = ""
    · exact ⟨"Invalid or missing Bank Name", by rw [if_pos hname]⟩
    · rw [if_neg hname]
      by_cases hr : ((csvRowBank line).InterestRate.isNaN ||
          (csvRowBank line).InterestRate.ltZero) = true
      · exact ⟨"Invalid Interest Rate", by rw [if_pos hr]⟩
      · rw [if_neg hr]
        by_cases hml : ((csvRowBank line).MaximumLoan.isNaN ||
            (csvRowBank line).MaximumLoan.ltZero) = true
        · exact ⟨"Invalid Maximum Loan", by rw [if_pos hml]⟩
        · rw [if_neg hml]
          by_cases hmd : ((csvRowBank line).MinimumDownPayment.isNaN ||
              (csvRowBank line).MinimumDownPayment.ltZero) = true
          · exact ⟨"Invalid Minimum Down Payment", by rw [if_pos hmd]⟩
          · rw [if_neg hmd]
            cases hterm : (csvRowBank line).LoanTerm with
            | none => exact ⟨"Invalid Loan Term", rfl⟩
            | some t =>
              by_cases htlt : t < 1
              · exact ⟨"Invalid Loan Term", by simp [htlt]⟩
              · exfalso
                have hok : spec_csvRowOk line = true := by
                  unfold spec_csvRowOk
                  simp only [Bool.and_eq_true, beq_iff_eq, bne_iff_ne, ne_eq]
                  refine ⟨⟨⟨⟨⟨by simpa [expectedHeaders] using h5, ?_⟩, ?_⟩, ?_⟩, ?_⟩, ?_⟩
                  · intro hnil
                    refine hname ?_
                    show String.mk ((csvValues line).getD 0 []) = ""
                    rw [string_mk_eq_empty_iff]
                    exact hnil
                  · exact (csvNumOk_iff _).mpr ((Bool.not_eq_true _) ▸ hr)
                  · exact (csvNumOk_iff _).mpr ((Bool.not_eq_true _) ▸ hml)
                  · exact (csvNumOk_iff _).mpr ((Bool.not_eq_true _) ▸ hmd)
                  · exact (csvTermOk_iff _).mpr ⟨t, hterm, htlt⟩
                rw [hok] at h
                exact Bool.true_eq_false.mp h

theorem csvDataRows_ok : ∀ (rows : List String), (∀ l ∈ rows, spec_csvRowOk l = true) →
    ∀ i, csvDataRows i rows = .ok (rows.map csvRowBank) := by
  intro rows
  induction rows with
  | nil => intro _ i; rfl
  | cons l rest ih =>
    intro h i
    simp only [csvDataRows, parseCsvRow_ok (h l (List.mem_cons_self l rest)) i,
      ih (fun x hx => h x (List.mem_cons_of_mem l hx)) (i + 1), List.map_cons]

theorem csvDataRows_error : ∀ (rows : List String) (j i : ℕ),
    j < rows.length →
    (∀ l ∈ rows.take j, spec_csvRowOk l = true) →
    spec_csvRowOk (rows.getD j "") = false →
    ∃ what, csvDataRows i rows = .error (rowErrMsg (i + j) what) := by
  intro rows
  induction rows with
  | nil => intro j i hj; simp at hj
  | cons l rest ih =>
    intro j i hj hbefore hbad
    cases j with
    | zero =>
      obtain ⟨what, hw⟩ := parseCsvRow_error (by simpa using hbad) i
      refine ⟨what, ?_⟩
      rw [Nat.add_zero]
      simp only [csvDataRows, hw]
    | succ j =>
      have hok : spec_csvRowOk l = true := by
        apply hbefore l
        simp [List.take_succ_cons]
      obtain ⟨what, hw⟩ := ih j (i + 1) (by simpa using hj)
        (fun x hx => hbefore x (by simp [List.take_succ_cons, hx]))
        (by simpa using hbad)
      refine ⟨what, ?_⟩
      have harith : i + 1 + j = i + (j + 1) := by omega
      rw [harith] at hw
      simp only [csvDataRows, parseCsvRow_ok hok i, hw]

/-- C4 (amended): full characterization of `importBanksFromCSV`.  After blank
lines are discarded: fewer than 2 lines, or a header that does not split into
exactly 5 columns, gives the corresponding format error; otherwise, if every
data row is valid (5 columns, non-empty name, numeric fields in range) the
full parsed sequence is returned, and if some data row is invalid the import
fails — returning no records — with a row error naming the 1-based line
number (`j + 2` for the `j`-th data row, counting the header as line 1) of
the first invalid row. -/
theorem importBanksFromCSV_characterization (content : String) :
    ((csvLines content).length < 2 →
      importBanksFromCSV content =
        .error "Failed to parse CSV file: CSV file must contain at least header and one data row") ∧
    (2 ≤ (csvLines content).length →
      ((splitCharList ',' ((csvLines content).headD "").toList).length ≠ 5 →
        importBanksFromCSV content =
          .error "Failed to parse CSV file: Invalid CSV format: incorrect number of columns") ∧
      ((splitCharList ',' ((csvLines content).headD "").toList).length = 5 →
        ((∀ l ∈ (csvLines content).drop 1, spec_csvRowOk l = true) →
          importBanksFromCSV content = .ok (((csvLines content).drop 1).map csvRowBank)) ∧
        (∀ j, j < (csvLines content).length - 1 →
          (∀ l ∈ ((csvLines content).drop 1).take j, spec_csvRowOk l = true) →
          spec_csvRowOk (((csvLines content).drop 1).getD j "") = false →
          ∃ what, importBanksFromCSV content =
            .error ("Failed to parse CSV file: " ++ rowErrMsg (1 + j) what)))) := by
  refine ⟨?_, ?_⟩
  · intro hlt
    simp only [importBanksFromCSV, if_pos hlt]
  · intro hge
    have hnotlt : ¬ (csvLines content).length < 2 := by omega
    constructor
    · intro hne5
      have : ((splitCharList ',' ((csvLines content).headD "").toList).map
          (fun h => String.mk (trimChars h))).length ≠ expectedHeaders.length := by
        rw [List.length_map]
        simpa [expectedHeaders] using hne5
      simp only [importBanksFromCSV, if_neg hnotlt, if_pos this]
    · intro heq5
      have hhead : ¬ ((splitCharList ',' ((csvLines content).headD "").toList).map
          (fun h => String.mk (trimChars h))).length ≠ expectedHeaders.length := by
        rw [List.length_map]
        simp only [expectedHeaders, List.length_cons, List.length_nil, ne_eq, not_not]
        exact heq5
      constructor
      · intro hall
        have hrows := csvDataRows_ok ((csvLines content).drop 1) hall 1
        simp only [importBanksFromCSV, if_neg hnotlt, if_neg hhead, hrows]
      · intro j hj hbefore hbad
        obtain ⟨what, hw⟩ := csvDataRows_error ((csvLines content).drop 1) j 1
          (by rw [List.length_drop]; omega) hbefore hbad
        refine ⟨what, ?_⟩
        simp only [importBanksFromCSV, if_neg hnotlt, if_neg hhead, hw]

/-- C4 counterexample to the claim as stated: a data row with exactly 5
columns whose numeric fields are all numeric and in range is nevertheless
rejected — with an error naming its row — because its bank-name field is
empty, a failure condition the claim does not list. -/
theorem importBanksFromCSV_claim_counterexample :
    importBanksFromCSV "Bank Name,Interest Rate (%),Maximum Loan ($),Minimum Down Payment ($),Loan Term (years)\n,3.5,500000,50000,30" =
      .error "Failed to parse CSV file: Row 2: Invalid or missing Bank Name" ∧
    (csvValues ",3.5,500000,50000,30").length = 5 ∧
    spec_csvNumOk ((csvValues ",3.5,500000,50000,30").getD 1 []) = true ∧
    spec_csvNumOk ((csvValues ",3.5,500000,50000,30").getD 2 []) = true ∧
    spec_csvNumOk ((csvValues ",3.5,500000,50000,30").getD 3 []) = true ∧
    spec_csvTermOk ((csvValues ",3.5,500000,50000,30").getD 4 []) = true := by
  refine ⟨?_, ?_, ?_, ?_, ?_, ?_⟩ <;> with_unfolding_all rfl

/-- Witness for C4 (amended) on a well-formed two-line file. -/
theorem importBanksFromCSV_characterization_witness :
    importBanksFromCSV "Bank Name,Interest Rate (%),Maximum Loan ($),Minimum Down Payment ($),Loan Term (years)\n\"Bank A\",3.5,500000,50000,30" =
      .ok [⟨"Bank A", .fin (7/2), .fin 500000, .fin 50000, some 30⟩] := by
  have h := ((importBanksFromCSV_characterization
      "Bank Name,Interest Rate (%),Maximum Loan ($),Minimum Down Payment ($),Loan Term (years)\n\"Bank A\",3.5,500000,50000,30").2
    (of_decide_eq_true (by with_unfolding_all rfl))).2
    (of_decide_eq_true (by with_unfolding_all rfl)) |>.1
    (of_decide_eq_true (by with_unfolding_all rfl))
  rw [h]
  with_unfolding_all rfl

/-! ### JSON element validation vs the spec-side predicate -/

theorem jsonFieldBad_eq (v : JsValue) :
    spec_jsonFieldBad v = (!jsTruthy v || jsIsNaN v) := by
  cases v <;> simp [spec_jsonFieldBad, jsTruthy, jsIsNaN]

theorem jsonNameBad_eq (v : JsValue) :
    spec_jsonNameBad v = (!jsTruthy v || !v.isString) := by
  cases v <;> simp [spec_jsonNameBad, jsTruthy, JsValue.isString]

theorem validateJsBank_eq (i : ℕ) (b : JsBank) :
    validateJsBank i b =
      match spec_jsonFirstBadField b with
      | some f => .error (bankErrMsg i f)
      | none => .ok (coerceJsBank b) := by
  unfold validateJsBank spec_jsonFirstBadField
  rw [← jsonNameBad_eq, ← jsonFieldBad_eq, ← jsonFieldBad_eq, ← jsonFieldBad_eq,
    ← jsonFieldBad_eq]
  split_ifs <;> rfl

theorem jsonBankLoop_ok : ∀ (banks : List JsBank),
    (∀ b ∈ banks, spec_jsonFirstBadField b = none) →
    ∀ i, jsonBankLoop i banks = .ok (banks.map coerceJsBank) := by
  intro banks
  induction banks with
  | nil => intro _ i; rfl
  | cons b rest ih =>
    intro h i
    have hb : spec_jsonFirstBadField b = none := h b (List.mem_cons_self b rest)
    simp only [jsonBankLoop, validateJsBank_eq, hb,
      ih (fun x hx => h x (List.mem_cons_of_mem b hx)) (i + 1), List.map_cons]

theorem jsonBankLoop_error : ∀ (banks : List JsBank) (j i : ℕ),
    j < banks.length →
    (∀ b ∈ banks.take j, spec_jsonFirstBadField b = none) →
    ∀ f, spec_jsonFirstBadField
        (banks.getD j ⟨.missing, .missing, .missing, .missing, .missing⟩) = some f →
    jsonBankLoop i banks = .error (bankErrMsg (i + j) f) := by
  intro banks
  induction banks with
  | nil => intro j i hj; simp at hj
  | cons b rest ih =>
    intro j i hj hbefore f hbad
    cases j with
    | zero =>
      rw [Nat.add_zero]
      simp only [List.getD_cons_zero] at hbad
      simp only [jsonBankLoop, validateJsBank_eq, hbad]
    | succ j =>
      have hb : spec_jsonFirstBadField b = none := by
        apply hbefore b
        simp [List.take_succ_cons]
      have hw := ih j (i + 1) (by simpa using hj)
        (fun x hx => hbefore x (by simp [List.take_succ_cons, hx])) f
        (by simpa using hbad)
      have harith : i + 1 + j = i + (j + 1) := by omega
      rw [harith] at hw
      simp only [jsonBankLoop, validateJsBank_eq, hb, hw]

/-- C3 (amended): full characterization of `importBanksFromJSON` on a parsed
sequence.  The import succeeds — returning the whole sequence with the name
trimmed, the amounts `parseFloat`ed and the term `parseInt`ed — exactly when
no element has a bad field; it fails, returning no records, on the first
element with a bad field, with an error naming the element's 1-based index
and that field.  A required numeric field is bad when it is missing or
non-numeric **or JS-falsy** (the number `0`, the empty string, `null`,
`false`); the name is bad when it is missing, not a string, or empty. -/
theorem importBanksFromJSON_characterization (banks : List JsBank) :
    ((∀ b ∈ banks, spec_jsonFirstBadField b = none) →
      importBanksFromJSON banks = .ok (banks.map coerceJsBank)) ∧
    (∀ j, j < banks.length →
      (∀ b ∈ banks.take j, spec_jsonFirstBadField b = none) →
      ∀ f, spec_jsonFirstBadField
          (banks.getD j ⟨.missing, .missing, .missing, .missing, .missing⟩) = some f →
      importBanksFromJSON banks =
        .error ("Failed to parse JSON file: " ++ bankErrMsg j f)) := by
  constructor
  · intro h
    simp only [importBanksFromJSON, jsonBankLoop_ok banks h 0]
  · intro j hj hbefore f hbad
    have hw := jsonBankLoop_error banks j 0 hj hbefore f hbad
    rw [Nat.zero_add] at hw
    simp only [importBanksFromJSON, hw]

/-- C3 counterexample to the claim as stated: an element whose required
numeric fields are all present JSON numbers (`InterestRate` is the number
`0`) and whose name is a non-empty string is nevertheless rejected, because
the code's falsy test `!bank.InterestRate` rejects the number `0`. -/
theorem importBanksFromJSON_claim_counterexample :
    importBanksFromJSON [⟨.str "A", .num 0, .num 1, .num 1, .num 1⟩] =
      .error "Failed to parse JSON file: Bank 1: Invalid or missing InterestRate" ∧
    jsIsNaN (.num 0) = false ∧ (JsValue.num 0).isString = false := by
  refine ⟨?_, ?_, ?_⟩ <;> with_unfolding_all rfl

/-- Witness for C3 (amended) on a one-element sequence of numbers. -/
theorem importBanksFromJSON_characterization_witness :
    importBanksFromJSON [⟨.str "Bank A", .num (7/2), .num 500000, .num 50000, .num 30⟩] =
      .ok [⟨"Bank A", .fin (7/2), .fin 500000, .fin 50000, some 30⟩] := by
  have h := (importBanksFromJSON_characterization
    [⟨.str "Bank A", .num (7/2), .num 500000, .num 50000, .num 30⟩]).1
    (of_decide_eq_true (by with_unfolding_all rfl))
  rw [h]
  with_unfolding_all rfl

/-- C5 counterexample to the claim as stated: `⟨"A", 0, 500000, 50000, 30⟩`
is a valid BankOffer by the claim's conditions (non-empty name, rate in
[0,100], amounts in range, term ≥ 1), and `export → import` does not
round-trip it: the JSON import rejects the serialized record because the
rate `0` is JS-falsy. -/
theorem exportImportJSON_claim_counterexample :
    importBanksFromJSON (exportBanksToJSON [⟨"A", 0, 500000, 50000, 30⟩]) =
      .error "Failed to parse JSON file: Bank 1: Invalid or missing InterestRate" := by
  with_unfolding_all rfl

/-- C5 (amended): for every collection of valid BankOffer records whose
numeric fields are moreover strictly positive, whose term is an integer, and
whose name is trim-invariant, serializing with `exportBanksToJSON` and
importing the parsed result with `importBanksFromJSON` succeeds and returns
the collection itself: the name unchanged, the three amounts exactly the
original rationals, and the term the original integer. -/
theorem exportImportJSON_roundTrip (banks : List BankRecord)
    (h : ∀ b ∈ banks, String.mk (trimChars b.BankName.toList) = b.BankName ∧
      b.BankName ≠ "" ∧ 0 < b.InterestRate ∧ 0 < b.MaximumLoan ∧
      0 < b.MinimumDownPayment ∧ b.LoanTerm.den = 1 ∧ 1 ≤ b.LoanTerm) :
    importBanksFromJSON (exportBanksToJSON banks) =
      .ok (banks.map (fun b => ⟨b.BankName, .fin b.InterestRate, .fin b.MaximumLoan,
        .fin b.MinimumDownPayment, some b.LoanTerm.num⟩)) := by
  have hgood : ∀ x ∈ exportBanksToJSON banks, spec_jsonFirstBadField x = none := by
    intro x hx
    obtain ⟨b, hb, rfl⟩ := List.mem_map.mp hx
    obtain ⟨-, hname, hr, hml, hmd, -, hterm⟩ := h b hb
    unfold spec_jsonFirstBadField
    rw [if_neg, if_neg, if_neg, if_neg, if_neg]
    · show ¬ spec_jsonFieldBad (.num b.LoanTerm) = true
      simp only [spec_jsonFieldBad, beq_iff_eq]
      intro hzero
      rw [hzero] at hterm
      norm_num at hterm
    · show ¬ spec_jsonFieldBad (.num b.MinimumDownPayment) = true
      simp only [spec_jsonFieldBad, beq_iff_eq]
      intro hzero
      rw [hzero] at hmd
      exact lt_irrefl 0 hmd
    · show ¬ spec_jsonFieldBad (.num b.MaximumLoan) = true
      simp only [spec_jsonFieldBad, beq_iff_eq]
      intro hzero
      rw [hzero] at hml
      exact lt_irrefl 0 hml
    · show ¬ spec_jsonFieldBad (.num b.InterestRate) = true
      simp only [spec_jsonFieldBad, beq_iff_eq]
      intro hzero
      rw [hzero] at hr
      exact lt_irrefl 0 hr
    · show ¬ spec_jsonNameBad (.str b.BankName) = true
      simp only [spec_jsonNameBad, beq_iff_eq]
      exact hname
  rw [(importBanksFromJSON_characterization (exportBanksToJSON banks)).1 hgood]
  unfold exportBanksToJSON
  rw [List.map_map]
  congr 1
  apply List.map_congr_left
  intro b hb
  obtain ⟨htrim, -, -, -, -, hden, -⟩ := h b hb
  unfold coerceJsBank
  simp only [Function.comp_apply, ParsedBank.mk.injEq]
  refine ⟨htrim, rfl, rfl, rfl, ?_⟩
  show some (b.LoanTerm.num.tdiv ((b.LoanTerm.den : ℕ) : ℤ)) = some b.LoanTerm.num
  rw [hden]
  simp [Int.tdiv_one]

/-- Witness for C5 (amended) on a one-bank collection. -/
theorem exportImportJSON_roundTrip_witness :
    importBanksFromJSON (exportBanksToJSON [⟨"Bank A", 7/2, 500000, 50000, 30⟩]) =
      .ok [⟨"Bank A", .fin (7/2), .fin 500000, .fin 50000, some (30:ℚ).num⟩] := by
  have h := exportImportJSON_roundTrip [⟨"Bank A", 7/2, 500000, 50000, 30⟩] (by
    intro b hb
    simp only [List.mem_singleton] at hb
    subst hb
    refine ⟨of_decide_eq_true (by with_unfolding_all rfl),
      of_decide_eq_true (by with_unfolding_all rfl), by norm_num, by norm_num, by norm_num,
      of_decide_eq_true (by with_unfolding_all rfl), by norm_num⟩)
  rw [h]
  with_unfolding_all rfl
